import Mathlib

/-!
Verification of the session-validation and role-authorization core of the
sanity-staging-security plugin, embedded shallowly in Lean 4.

The repository ships two snapshots of several modules (a current one and a
legacy one, concatenated in the same source files).  Where a claim cites both
snapshots, both are embedded: definitions without a suffix follow the current
snapshot, definitions suffixed `Legacy` follow the legacy snapshot.
-/

namespace StagingAuth

/-! ## Role utilities

Embeds `RoleUtils` from the role-utilities module (the full-alias snapshot,
src/unnamed/part_010).  The legacy copy (src/src/utils/roles.ts) is embedded
below with the `Legacy` suffix. -/

/-- The `roleNameMappings` table: alias spelling to canonical role.
Mirrors the object literal at part_010 lines 15-40. -/
def roleNameMappings : List (String × String) :=
  [("admin", "administrator"), ("Admin", "administrator"), ("ADMIN", "administrator"),
   ("administrator", "administrator"), ("Administrator", "administrator"),
   ("ADMINISTRATOR", "administrator"),
   ("dev", "developer"), ("Dev", "developer"), ("DEV", "developer"),
   ("developer", "developer"), ("Developer", "developer"), ("DEVELOPER", "developer"),
   ("editor", "editor"), ("Editor", "editor"), ("EDITOR", "editor"),
   ("contrib", "contributor"), ("Contrib", "contributor"), ("CONTRIB", "contributor"),
   ("contributor", "contributor"), ("Contributor", "contributor"),
   ("CONTRIBUTOR", "contributor"),
   ("viewer", "viewer"), ("Viewer", "viewer"), ("VIEWER", "viewer")]

/-- `roleNameMappings[role]` as a JS property lookup (exact, case-sensitive). -/
def lookupMapping (role : String) : Option String :=
  (roleNameMappings.find? (fun p => p.fst = role)).map Prod.snd

/-- `toLowerCase()`: lowercase every character. -/
def jsToLower (s : String) : String :=
  String.mk (s.data.map Char.toLower)

/-- `RoleUtils.normalize`: `roleNameMappings[role] || role.toLowerCase()`.
All values in the table are nonempty strings, so JS truthiness of the lookup
coincides with the lookup succeeding. -/
def normalize (role : String) : String :=
  match lookupMapping role with
  | some r => r
  | none => jsToLower role

/-- `rolePriority` (highest to lowest), part_010 lines 46-52. -/
def rolePriority : List String :=
  ["administrator", "developer", "editor", "contributor", "viewer"]

/-- `RoleUtils.getHighestPriority`: normalize all inputs, scan the priority
order for the first role contained in the normalized list, else fall back to
the first normalized element (`undefined` on empty input). -/
def getHighestPriority (roles : List String) : Option String :=
  let normalizedRoles := roles.map normalize
  match rolePriority.find? (fun p => normalizedRoles.contains p) with
  | some p => some p
  | none => normalizedRoles.head?

/-- The value of a `name` field on a role object: a string or `null`. -/
inductive NameVal where
  | strV (s : String)
  | nullV
  deriving DecidableEq, Repr

/-- One element of a `user.roles` array: a plain string, an object (with an
optional `name` field and an optional `title` field, only `name` is ever
read), or an invalid entry (`null`/`undefined`/non-object). -/
inductive RoleEntry where
  | strE (s : String)
  | objE (name : Option NameVal) (title : Option String)
  | nullE
  deriving DecidableEq, Repr

/-- The `user.roles` field: absent (or otherwise falsy), a comma-separated
string, or an array of entries. -/
inductive RolesField where
  | absent
  | str (s : String)
  | arr (xs : List RoleEntry)
  deriving DecidableEq, Repr

/-- The `.map` step of `extractFromUser` on an array element: a string maps to
itself; an object with a `name` key maps to `role.name` (which may be `null`,
modelled as `none`); everything else maps to `null`. -/
def entryToRaw : RoleEntry → Option String
  | .strE s => some s
  | .objE (some (.strV s)) _ => some s
  | .objE (some .nullV) _ => none
  | .objE none _ => none
  | .nullE => none

/-- Whitespace characters removed by `trim()`. -/
def isJsWhitespace (c : Char) : Bool :=
  c = ' ' || c = '\t' || c = '\n' || c = '\r'

/-- `trim()`: strip leading and trailing whitespace. -/
def jsTrim (s : String) : String :=
  String.mk (((s.data.dropWhile isJsWhitespace).reverse.dropWhile isJsWhitespace).reverse)

/-- Worker for `split(",")` over the character list. -/
def splitCommaAux : List Char → List Char → List String
  | [], acc => [String.mk acc.reverse]
  | c :: cs, acc =>
      if c = ',' then String.mk acc.reverse :: splitCommaAux cs []
      else splitCommaAux cs (c :: acc)

/-- `split(",")`: split on every comma (the empty string yields `[""]`). -/
def jsSplitComma (s : String) : List String :=
  splitCommaAux s.data []

/-- Accumulator pass for `dedupFirst`: keep an element if it was not seen
yet. -/
def dedupFirstAux (seen : List String) : List String → List String
  | [] => []
  | x :: xs =>
      if seen.contains x then dedupFirstAux seen xs
      else x :: dedupFirstAux (seen ++ [x]) xs

/-- `[...new Set(l)]`: deduplicate keeping the first occurrence of each
element, preserving order. -/
def dedupFirst (l : List String) : List String :=
  dedupFirstAux [] l

/-- `RoleUtils.extractFromUser` (part_010 lines 108-136).  The guard
`if (!user?.roles) return []` makes an absent field and the empty string both
yield `[]`; a comma-separated string is split, trimmed and normalized; an
array is mapped to raw names, filtered (`role !== null && role !== ''`),
normalized, and deduplicated via a `Set`. -/
def extractFromUser : RolesField → List String
  | .absent => []
  | .str s =>
      if s = "" then []
      else (jsSplitComma s).map (fun r => normalize (jsTrim r))
  | .arr xs =>
      let extractedRoles :=
        ((xs.filterMap entryToRaw).filter (fun r => r ≠ "")).map normalize
      dedupFirst extractedRoles

/-! ### Legacy role utilities (src/src/utils/roles.ts)

The legacy copy has a smaller alias table (no `dev`/`contrib` aliases, no
upper-case spellings), omits `contributor` from the priority order, and its
array filter keeps empty-string names (`role !== null` only). -/

/-- Legacy `roleNameMappings` (roles.ts lines 16-25). -/
def roleNameMappingsLegacy : List (String × String) :=
  [("admin", "administrator"), ("administrator", "administrator"),
   ("editor", "editor"), ("Editor", "editor"),
   ("viewer", "viewer"), ("Viewer", "viewer"),
   ("developer", "developer"), ("Developer", "developer")]

/-- Legacy property lookup. -/
def lookupMappingLegacy (role : String) : Option String :=
  (roleNameMappingsLegacy.find? (fun p => p.fst = role)).map Prod.snd

/-- Legacy `RoleUtils.normalize`. -/
def normalizeLegacy (role : String) : String :=
  match lookupMappingLegacy role with
  | some r => r
  | none => jsToLower role

/-- Legacy `rolePriority` (roles.ts lines 31-36): no `contributor` tier. -/
def rolePriorityLegacy : List String :=
  ["administrator", "developer", "editor", "viewer"]

/-- Legacy `RoleUtils.getHighestPriority` (roles.ts lines 69-79). -/
def getHighestPriorityLegacy (roles : List String) : Option String :=
  let normalizedRoles := roles.map normalizeLegacy
  match rolePriorityLegacy.find? (fun p => normalizedRoles.contains p) with
  | some p => some p
  | none => normalizedRoles.head?

/-- Legacy `RoleUtils.extractFromUser` (roles.ts lines 92-128): the filter is
only `role !== null`, so empty-string names survive. -/
def extractFromUserLegacy : RolesField → List String
  | .absent => []
  | .str s =>
      if s = "" then []
      else (jsSplitComma s).map (fun r => normalizeLegacy (jsTrim r))
  | .arr xs =>
      let extractedRoles := (xs.filterMap entryToRaw).map normalizeLegacy
      dedupFirst extractedRoles

/-! ## throttleAsync

Embeds `throttleAsync` (src/src/utils/throttle.ts lines 88-124; the legacy
copy src/unnamed/part_007 lines 79-114 differs only in that its guard inside
`finally` compares `currentPromise` with itself and is therefore always true).

The closure state is `lastCall` and `currentPromise`; promises are modelled
by numeric identities in order of creation.  The `finally` handler runs when
the promise settles: if `currentPromise === promiseRef` still holds at that
moment it schedules `currentPromise = null` via `setTimeout(delay)`; the
timer callback nulls the reference unconditionally when it fires.  A run
processes a timestamped trace of calls, settlements and timer firings, and
checks the trace is an admissible event-loop execution (`wf`): timestamps
are monotone, a promise settles once and only after its creation, timers
never stay overdue, and a timer firing consumes a scheduled timer due at
exactly that time. -/

/-- Event-loop state of one `throttleAsync` instance plus trace bookkeeping. -/
structure ThrottleWorld where
  lastCall : Nat
  currentPromise : Option Nat
  nextId : Nat
  timers : List Nat
  created : List (Nat × Nat)
  settledIds : List Nat
  wf : Bool
  lastTime : Nat
  invocations : List (Nat × Nat)
  returned : List (Nat × Nat)
  deriving DecidableEq, Repr

/-- Initial state: `lastCall = 0`, no current promise, nothing scheduled. -/
def initThrottleWorld : ThrottleWorld :=
  ⟨0, none, 0, [], [], [], true, 0, [], []⟩

/-- External events: a caller invokes the throttled function, the underlying
promise settles, or a scheduled null-ing timer fires. -/
inductive TEvent where
  | call (now : Nat)
  | settle (pid : Nat) (now : Nat)
  | fireClear (now : Nat)
  deriving DecidableEq, Repr

/-- No scheduled timer is overdue at time `now`. -/
def timersNotOverdue (timers : List Nat) (now : Nat) : Bool :=
  timers.all (fun t => now ≤ t)

/-- One event of the `throttleAsync` event loop. -/
def throttleStep (delay : Nat) (w : ThrottleWorld) (e : TEvent) : ThrottleWorld :=
  match e with
  | .call now =>
      let ok := w.wf && decide (w.lastTime ≤ now) && timersNotOverdue w.timers now
      let w := { w with wf := ok, lastTime := now }
      match w.currentPromise with
      | some p =>
          if now - w.lastCall < delay then
            { w with returned := w.returned ++ [(now, p)] }
          else
            { w with lastCall := now, currentPromise := some w.nextId,
                     nextId := w.nextId + 1,
                     created := w.created ++ [(w.nextId, now)],
                     invocations := w.invocations ++ [(now, w.nextId)],
                     returned := w.returned ++ [(now, w.nextId)] }
      | none =>
          { w with lastCall := now, currentPromise := some w.nextId,
                   nextId := w.nextId + 1,
                   created := w.created ++ [(w.nextId, now)],
                   invocations := w.invocations ++ [(now, w.nextId)],
                   returned := w.returned ++ [(now, w.nextId)] }
  | .settle pid now =>
      let ok := w.wf && decide (w.lastTime ≤ now) && timersNotOverdue w.timers now
        && w.created.any (fun c => c.fst = pid && c.snd ≤ now)
        && !(w.settledIds.contains pid)
      let w := { w with wf := ok, lastTime := now, settledIds := w.settledIds ++ [pid] }
      if w.currentPromise = some pid then
        { w with timers := w.timers ++ [now + delay] }
      else w
  | .fireClear now =>
      let ok := w.wf && decide (w.lastTime ≤ now) && w.timers.contains now
        && timersNotOverdue w.timers now
      { w with wf := ok, lastTime := now, timers := w.timers.erase now,
               currentPromise := none }

/-- Run a trace of events against a fresh `throttleAsync` instance. -/
def runThrottle (delay : Nat) (events : List TEvent) : ThrottleWorld :=
  events.foldl (throttleStep delay) initThrottleWorld

/-- The interleaving that defeats the throttle window: a first call at t=0
whose promise settles at t=5, a second call at t=12 (past the first window),
the stale null-ing timer of the first promise firing at t=15, and a third
call at t=16, only 4ms into the second window. -/
def throttleBugTrace : List TEvent :=
  [.call 0, .settle 0 5, .call 12, .fireClear 15, .call 16]

/-! ## Session validation

Embeds `validateStagingAccess` (src/unnamed/part_005) and
`parseValidationResponse` (src/unnamed/part_002 lines 181-197). -/

/-- `urls.apiEndpoints` of the configuration. -/
structure ApiEndpoints where
  validateV3 : String
  stagingLogin : String
  deriving DecidableEq, Repr

/-- `urls` tier of the configuration. -/
structure UrlsConfig where
  staging : String
  development : List String
  apiEndpoints : ApiEndpoints
  deriving DecidableEq, Repr

/-- `security` tier of the configuration. -/
structure SecurityConfig where
  tokenValidityDays : Nat
  rateLimitRetryMs : Nat
  allowedOrigins : List String
  cookieName : String
  deriving DecidableEq, Repr

/-- `logging` tier of the configuration. -/
structure LoggingConfig where
  provider : String
  level : String
  flushInterval : Nat
  deriving DecidableEq, Repr

/-- `features` tier of the configuration. -/
structure FeaturesConfig where
  autoValidation : Bool
  debugMode : Bool
  enablePostMessage : Bool
  showToasts : Bool
  deriving DecidableEq, Repr

/-- The `StagingAuthConfig` shape. -/
structure StagingAuthConfig where
  urls : UrlsConfig
  security : SecurityConfig
  logging : LoggingConfig
  features : FeaturesConfig
  deriving DecidableEq, Repr

/-- JSON values, as delivered by `response.json()`. -/
inductive Json where
  | nullJ
  | boolJ (b : Bool)
  | strJ (s : String)
  | numJ (n : Int)
  | arrJ (xs : List Json)
  | objJ (fields : List (String × Json))

/-- The parsed `ValidationResult` shape. -/
structure ValidationResult where
  authorized : Bool
  role : Option String
  error : Option String
  correlationId : Option String
  timestamp : Option String
  deriving DecidableEq, Repr

/-- JS property read on an object literal (keys are unique after JSON
parsing; the first binding is taken). -/
def getField (fields : List (String × Json)) (k : String) : Option Json :=
  (fields.find? (fun p => p.fst = k)).map Prod.snd

/-- A `z.string().optional()` field: absent is fine, present must be a
string; anything else fails the schema. -/
def parseOptionalString (fields : List (String × Json)) (k : String) :
    Option (Option String) :=
  match getField fields k with
  | none => some none
  | some (.strJ s) => some (some s)
  | some _ => none

/-- `parseValidationResponse`: `ValidationResponseSchema.parse` with the
`try`/`catch` that turns a `ZodError` into `null`.  The schema requires an
object with a boolean `authorized` and optional string `role`, `error`,
`correlationId`, `timestamp` (unknown keys are stripped by `z.object`). -/
def parseValidationResponse (v : Json) : Option ValidationResult :=
  match v with
  | .objJ fields =>
      match getField fields "authorized" with
      | some (.boolJ b) =>
          match parseOptionalString fields "role", parseOptionalString fields "error",
                parseOptionalString fields "correlationId",
                parseOptionalString fields "timestamp" with
          | some role, some err, some cid, some ts => some ⟨b, role, err, cid, ts⟩
          | _, _, _, _ => none
      | _ => none
  | _ => none

/-- A thrown JS value: a `TypeError` raised by the runtime, or an `Error`
constructed by the code. -/
inductive JsError where
  | typeError (msg : String)
  | jsError (msg : String)
  deriving DecidableEq, Repr

/-- Result of one `validateStagingAccess` call: either a thrown error or a
returned `ValidationResult`. -/
inductive VResult where
  | thrown (e : JsError)
  | ok (v : ValidationResult)
  deriving DecidableEq, Repr

/-- What the fetch produced: a transport failure or an HTTP response. -/
structure HttpResponse where
  status : Nat
  statusText : String
  retryAfter : Option String
  body : Json

/-- `response.ok`: status in the 2xx range. -/
def responseOk (r : HttpResponse) : Bool :=
  decide (200 ≤ r.status) && decide (r.status < 300)

/-- Transport outcome of the network call. -/
inductive FetchOutcome where
  | networkError (msg : String)
  | response (r : HttpResponse)

/-- Outcome of `validateStagingAccess` plus whether the POST was issued. -/
structure ValidateOutcome where
  fetchIssued : Bool
  result : VResult
  deriving DecidableEq, Repr

/-- `retrySeconds` on a 429: `retryAfter || Math.floor(rateLimitRetryMs / 1000)`
(the header string when present and nonempty, else the floored fallback). -/
def rateLimitRetrySeconds (cfg : StagingAuthConfig) (retryAfter : Option String) :
    String :=
  match retryAfter with
  | some s => if s = "" then toString (cfg.security.rateLimitRetryMs / 1000) else s
  | none => toString (cfg.security.rateLimitRetryMs / 1000)

/-- The 429 error message template. -/
def rateLimitMessage (cfg : StagingAuthConfig) (retryAfter : Option String) : String :=
  "Rate limit exceeded. Please try again in " ++
    rateLimitRetrySeconds cfg retryAfter ++ " seconds."

/-- The 403 error message. -/
def forbiddenMessage : String := "Access forbidden. This domain is not authorized."

/-- The generic non-2xx error message. -/
def validationFailedMessage (statusText : String) : String :=
  "Validation failed: " ++ statusText

/-- The malformed-body error message. -/
def invalidFormatMessage : String := "Invalid response format from validation API"

/-- `validateStagingAccess` (src/unnamed/part_005 lines 73-189).  The start
log data reads `userRoles.length` before the `try` block, so an omitted
`userRoles` raises a `TypeError` before the fetch; responses are classified
as 429 / 403 / other non-2xx / malformed body / success, and the `catch`
block re-throws `Error` instances unchanged. -/
def validateStagingAccess (_sessionToken : String) (userRoles : Option (List String))
    (_userName _userEmail : Option String) (cfg : StagingAuthConfig)
    (fetched : FetchOutcome) : ValidateOutcome :=
  match userRoles with
  | none =>
      ⟨false, .thrown (.typeError "Cannot read properties of undefined (reading length)")⟩
  | some _ =>
      match fetched with
      | .networkError msg => ⟨true, .thrown (.jsError msg)⟩
      | .response r =>
          if responseOk r = false then
            if r.status = 429 then
              ⟨true, .thrown (.jsError (rateLimitMessage cfg r.retryAfter))⟩
            else if r.status = 403 then
              ⟨true, .thrown (.jsError forbiddenMessage)⟩
            else
              ⟨true, .thrown (.jsError (validationFailedMessage r.statusText))⟩
          else
            match parseValidationResponse r.body with
            | none => ⟨true, .thrown (.jsError invalidFormatMessage)⟩
            | some result => ⟨true, .ok result⟩

/-! ## Cross-origin bridge

Embeds the `handleMessage` closure of `StudioAuthBridge` in both snapshots of
src/src/StudioAuthBridge.tsx: the current handler (lines 210-227, origin
check first, CSRF nonce support) and the legacy handler (lines 348-379, which
evaluates `isPostMessageAuthRequest` before the origin check and has no nonce
handling).  `parseRan` records whether any schema validation touched the
message payload. -/

/-- Studio-side auth state visible to the bridge. -/
structure AuthState where
  authenticated : Bool
  hasValidation : Bool
  isValidating : Bool
  deriving DecidableEq, Repr

/-- Inbound message payloads, by the shape the Zod schemas discriminate on. -/
inductive MsgData where
  | nonceReg (nonce : String) (origin : String)
  | authReq (correlationId : Option String) (nonce : Option String)
  | otherMsg
  deriving DecidableEq, Repr

/-- The `staging-auth-status` reply payload. -/
structure AuthReply where
  authenticated : Bool
  hasValidation : Bool
  isValidating : Bool
  correlationId : Option String
  nonce : Option String
  deriving DecidableEq, Repr

/-- JS truthiness of an optional string (`undefined` and `""` are falsy). -/
def strTruthy : Option String → Bool
  | none => false
  | some s => decide (s ≠ "")

/-- `isValidNonce`: `!nonce || validNonces.current.has(nonce)`. -/
def isValidNonce (nonces : List String) (nonce : Option String) : Bool :=
  match nonce with
  | none => true
  | some n => if n = "" then true else nonces.contains n

/-- `handleNonceRegistration`: parse as a nonce registration; on success with
a matching `origin` field, add the nonce to the registry (a `Set`) and report
the message as handled. -/
def handleNonceRegistration (data : MsgData) (eventOrigin : String)
    (nonces : List String) : Bool × List String :=
  match data with
  | .nonceReg n o => if o = eventOrigin then (true, nonces.insert n) else (false, nonces)
  | _ => (false, nonces)

/-- `handleAuthRequest` (current snapshot, lines 120-147): requires the
PostMessage feature and an auth-request payload; drops the request when a
truthy nonce fails `isValidNonce`; otherwise replies to the sender when the
event has a source window, echoing `correlationId` and `nonce`. -/
def handleAuthRequest (cfg : StagingAuthConfig) (auth : AuthState)
    (nonces : List String) (data : MsgData) (sourcePresent : Bool) :
    Option AuthReply :=
  if cfg.features.enablePostMessage = false then none
  else
    match data with
    | .authReq cid nonce =>
        if strTruthy nonce && !(isValidNonce nonces nonce) then none
        else if sourcePresent then
          some ⟨auth.authenticated, auth.hasValidation, auth.isValidating, cid, nonce⟩
        else none
    | _ => none

/-- What one `handleMessage` turn produced. -/
structure BridgeOutcome where
  parseRan : Bool
  reply : Option AuthReply
  nonces : List String
  deriving DecidableEq, Repr

/-- Current `handleMessage` (lines 210-227): drop untrusted origins before
any parsing; then try nonce registration; then the auth request path. -/
def handleMessage (cfg : StagingAuthConfig) (auth : AuthState)
    (nonces : List String) (origin : String) (data : MsgData)
    (sourcePresent : Bool) : BridgeOutcome :=
  if cfg.security.allowedOrigins.contains origin = false then
    ⟨false, none, nonces⟩
  else
    let reg := handleNonceRegistration data origin nonces
    if reg.fst then ⟨true, none, reg.snd⟩
    else ⟨true, handleAuthRequest cfg auth reg.snd data sourcePresent, reg.snd⟩

/-- Legacy `handleMessage` (lines 348-379): evaluates
`config.features.enablePostMessage && isPostMessageAuthRequest(messageData)`
first — running schema validation on the payload whenever the feature is on —
and only then checks the origin; it keeps no nonce registry and its reply
carries no nonce. -/
def handleMessageLegacy (cfg : StagingAuthConfig) (auth : AuthState)
    (origin : String) (data : MsgData) (sourcePresent : Bool) : BridgeOutcome :=
  if cfg.features.enablePostMessage then
    match data with
    | .authReq cid _ =>
        if cfg.security.allowedOrigins.contains origin = false then ⟨true, none, []⟩
        else if sourcePresent then
          ⟨true, some ⟨auth.authenticated, auth.hasValidation, auth.isValidating, cid, none⟩, []⟩
        else ⟨true, none, []⟩
    | _ => ⟨true, none, []⟩
  else ⟨false, none, []⟩

/-! ## Configuration building

Embeds `buildConfig` in both snapshots of src/src/config/index.ts.  The
current snapshot (lines 107-207) starts from `deepClone(defaults)`; the
legacy snapshot (lines 453-549) starts from the shallow spread
`{ ...defaults }`, which shares the four nested objects (`urls`, `security`,
`logging`, `features`) with `defaults`, so every nested-field assignment
writes through to `defaults`.  A `BuildState` tracks the content of the
module-level `defaults` object and of the snapshot under construction, with
`shared = true` modelling the aliasing of the shallow copy. -/

/-- The compiled `defaults` object (identical in both snapshots). -/
def defaults : StagingAuthConfig :=
  { urls := { staging := "https://staging.example.com",
              development := ["https://localhost:3000", "https://localhost:3334",
                              "http://localhost:3000"],
              apiEndpoints := { validateV3 := "/api/auth/validate-sanity-v3",
                                stagingLogin := "/api/auth/staging-login" } },
    security := { tokenValidityDays := 7, rateLimitRetryMs := 60000,
                  allowedOrigins := ["https://staging.example.com",
                                     "https://localhost:3000",
                                     "https://localhost:3334"],
                  cookieName := "staging-auth" },
    logging := { provider := "console", level := "info", flushInterval := 1000 },
    features := { autoValidation := true, debugMode := false,
                  enablePostMessage := true, showToasts := true } }

/-- `structuredClone` of a configuration: a fresh object graph with the same
content. -/
def deepClone (c : StagingAuthConfig) : StagingAuthConfig := c

/-- Content of the `defaults` object and of the snapshot being built;
`shared` is true when the snapshot was made with `{ ...defaults }` and the
nested objects are aliased. -/
structure BuildState where
  dflt : StagingAuthConfig
  cfg : StagingAuthConfig
  shared : Bool
  deriving DecidableEq, Repr

/-- Assignment through `config.urls`: also hits `defaults.urls` when the
nested objects are shared. -/
def writeUrls (st : BuildState) (f : UrlsConfig → UrlsConfig) : BuildState :=
  { dflt := if st.shared then { st.dflt with urls := f st.dflt.urls } else st.dflt,
    cfg := { st.cfg with urls := f st.cfg.urls },
    shared := st.shared }

/-- Assignment through `config.security`. -/
def writeSecurity (st : BuildState) (f : SecurityConfig → SecurityConfig) : BuildState :=
  { dflt := if st.shared then { st.dflt with security := f st.dflt.security } else st.dflt,
    cfg := { st.cfg with security := f st.cfg.security },
    shared := st.shared }

/-- Assignment through `config.logging`. -/
def writeLogging (st : BuildState) (f : LoggingConfig → LoggingConfig) : BuildState :=
  { dflt := if st.shared then { st.dflt with logging := f st.dflt.logging } else st.dflt,
    cfg := { st.cfg with logging := f st.cfg.logging },
    shared := st.shared }

/-- Assignment through `config.features`. -/
def writeFeatures (st : BuildState) (f : FeaturesConfig → FeaturesConfig) : BuildState :=
  { dflt := if st.shared then { st.dflt with features := f st.dflt.features } else st.dflt,
    cfg := { st.cfg with features := f st.cfg.features },
    shared := st.shared }

/-- JS truthiness of an optional number (`undefined`, `NaN` and `0` falsy). -/
def natTruthy : Option Nat → Bool
  | none => false
  | some n => decide (n ≠ 0)

/-- Values fetched from Edge Config (each key possibly absent). -/
structure EdgeValues where
  stagingUrl : Option String
  allowedOrigins : Option (List String)
  rateLimitMs : Option Nat
  featAutoValidation : Option Bool
  featDebugMode : Option Bool
  featEnablePostMessage : Option Bool
  featShowToasts : Option Bool
  deriving DecidableEq, Repr

/-- Everything one `buildConfig()` call reads from its environment. -/
structure BuildInput where
  nodeEnvDevelopment : Bool
  debugVarTrue : Bool
  stagingUrl : Option String
  cookieName : Option String
  tokenValidityDays : Option Nat
  rateLimitMs : Option Nat
  logflareApiKey : Option String
  logflareSourceId : Option String
  isVercel : Bool
  isEdge : Bool
  edgeAvailable : Bool
  edge : EdgeValues
  deriving DecidableEq, Repr

/-- Guarded update: `if (cond) { write }`. -/
def condW (b : Bool) (f : BuildState → BuildState) (st : BuildState) : BuildState :=
  if b then f st else st

/-- The override sequence of `buildConfig`, in source order (Edge Config
overrides, environment-variable overrides, logging configuration, feature
flags, Vercel flush tuning, development origins).  The nested edge branch is
flattened: each edge override fires when the Vercel/Edge-Config guard and its
own presence test hold. -/
def overrideSteps (i : BuildInput) : List (BuildState → BuildState) :=
  let onEdge := i.isVercel && i.edgeAvailable
  let isDev := i.nodeEnvDevelopment
  let isDebug := i.debugVarTrue || isDev
  [condW (onEdge && strTruthy i.edge.stagingUrl)
     (fun st => writeUrls st (fun u => { u with staging := i.edge.stagingUrl.getD "" })),
   condW (onEdge && i.edge.allowedOrigins.isSome)
     (fun st => writeSecurity st
        (fun s => { s with allowedOrigins := i.edge.allowedOrigins.getD [] })),
   condW (onEdge && natTruthy i.edge.rateLimitMs)
     (fun st => writeSecurity st
        (fun s => { s with rateLimitRetryMs := i.edge.rateLimitMs.getD 0 })),
   condW (onEdge && i.edge.featAutoValidation.isSome)
     (fun st => writeFeatures st
        (fun f => { f with autoValidation := i.edge.featAutoValidation.getD false })),
   condW (onEdge && i.edge.featDebugMode.isSome)
     (fun st => writeFeatures st
        (fun f => { f with debugMode := i.edge.featDebugMode.getD false })),
   condW (onEdge && i.edge.featEnablePostMessage.isSome)
     (fun st => writeFeatures st
        (fun f => { f with enablePostMessage := i.edge.featEnablePostMessage.getD false })),
   condW (onEdge && i.edge.featShowToasts.isSome)
     (fun st => writeFeatures st
        (fun f => { f with showToasts := i.edge.featShowToasts.getD false })),
   condW (strTruthy i.stagingUrl)
     (fun st => writeUrls st (fun u => { u with staging := i.stagingUrl.getD "" })),
   condW (strTruthy i.cookieName)
     (fun st => writeSecurity st (fun s => { s with cookieName := i.cookieName.getD "" })),
   condW (natTruthy i.tokenValidityDays)
     (fun st => writeSecurity st
        (fun s => { s with tokenValidityDays := i.tokenValidityDays.getD 0 })),
   condW (natTruthy i.rateLimitMs)
     (fun st => writeSecurity st
        (fun s => { s with rateLimitRetryMs := i.rateLimitMs.getD 0 })),
   condW (strTruthy i.logflareApiKey && strTruthy i.logflareSourceId)
     (fun st => writeLogging st (fun l => { l with provider := "logflare" })),
   condW (!(strTruthy i.logflareApiKey && strTruthy i.logflareSourceId) &&
          (i.isVercel || i.isEdge))
     (fun st => writeLogging st (fun l => { l with provider := "edge-console" })),
   (fun st => writeLogging st
      (fun l => { l with level := if isDebug then "debug"
                                  else if isDev then "info" else "warn" })),
   (fun st => writeFeatures st (fun f => { f with debugMode := isDebug })),
   (fun st => writeFeatures st (fun f => { f with showToasts := isDev || isDebug })),
   condW i.isVercel
     (fun st => writeLogging st (fun l => { l with flushInterval := 500 })),
   condW isDev
     (fun st => writeSecurity st
        (fun s => { s with allowedOrigins :=
            s.allowedOrigins ++ ["http://localhost:3000", "http://localhost:3333",
                                 "http://localhost:3334"] }))]

/-- Run the override sequence on a starting build state. -/
def applyOverrides (i : BuildInput) (st : BuildState) : BuildState :=
  (overrideSteps i).foldl (fun s f => f s) st

/-- Current `buildConfig` (lines 107-207): `const config = deepClone(defaults)`
then the overrides; in development mode it builds a new origins array instead
of pushing, which on unshared state has the same content effect. -/
def buildConfigDeepClone (i : BuildInput) (d : StagingAuthConfig) : BuildState :=
  applyOverrides i ⟨d, deepClone d, false⟩

/-- Legacy `buildConfig` (lines 453-549): `const config = { ...defaults }`
then the same overrides, with the nested objects shared with `defaults`. -/
def buildConfigLegacy (i : BuildInput) (d : StagingAuthConfig) : BuildState :=
  applyOverrides i ⟨d, d, true⟩

/-- Iterate deep-clone builds, threading the content of the module-level
`defaults` object from build to build. -/
def runDeepCloneBuilds (inputs : List BuildInput) (d : StagingAuthConfig) :
    StagingAuthConfig :=
  match inputs with
  | [] => d
  | i :: rest => runDeepCloneBuilds rest (buildConfigDeepClone i d).dflt

/-- A development-mode environment with no overrides and no Edge Config. -/
def devBuildInput : BuildInput :=
  { nodeEnvDevelopment := true, debugVarTrue := false, stagingUrl := none,
    cookieName := none, tokenValidityDays := none, rateLimitMs := none,
    logflareApiKey := none, logflareSourceId := none, isVercel := false,
    isEdge := false, edgeAvailable := false,
    edge := ⟨none, none, none, none, none, none, none⟩ }

/-! ## Theorems -/

/-- Helper: membership gives `contains = true` for string lists. -/
theorem contains_true_of_mem {l : List String} {a : String} (h : a ∈ l) :
    l.contains a = true :=
  List.elem_iff.mpr h

/-- Helper: non-membership gives `contains = false` for string lists. -/
theorem contains_false_of_not_mem {l : List String} {a : String} (h : a ∉ l) :
    l.contains a = false := by
  simp [List.elem_iff, h]

/-- C5: the claim asserts `normalize(a) = r` for every casing of a known
alias; but the mapping table is a case-sensitive property lookup listing only
the lowercase, capitalized and upper-case spellings, and the fallback merely
lowercases.  At the mixed casing "aDmin" of the alias "admin" the result is
"admin", not "administrator", refuting the claim. -/
theorem C5_mixed_case_alias_cx :
    normalize "aDmin" = "admin" ∧ normalize "aDmin" ≠ "administrator" := by
  decide

/-- C5 (amended): `normalize` maps every registered alias spelling (the
lower-case, capitalized and upper-case forms listed in `roleNameMappings`) to
its canonical role, and any spelling outside the table is merely
lowercased. -/
theorem C5_registered_alias_normalization :
    (∀ p ∈ roleNameMappings, normalize p.1 = p.2) ∧
    (∀ s : String, lookupMapping s = none → normalize s = jsToLower s) := by
  constructor
  · decide
  · intro s h
    simp [normalize, h]

/-- C5 witness: the amended theorem applied to the registered alias
"Contrib" and to the unregistered string "aDmin". -/
theorem C5_registered_alias_normalization_witness :
    normalize "Contrib" = "contributor" ∧ normalize "aDmin" = jsToLower "aDmin" :=
  ⟨C5_registered_alias_normalization.1 ("Contrib", "contributor") (by decide),
   C5_registered_alias_normalization.2 "aDmin" (by decide)⟩

/-- C6: the claim names the fixed priority order administrator, developer,
editor, contributor, viewer; the legacy role utilities omit the contributor
tier, so on ["contributor", "viewer"] they return "viewer" although the
claimed order puts "contributor" first, refuting the claim for the legacy
copy. -/
theorem C6_legacy_contributor_cx :
    getHighestPriorityLegacy ["contributor", "viewer"] = some "viewer" ∧
    ("viewer" : String) ≠ "contributor" ∧
    "contributor" ∈ ["contributor", "viewer"].map normalizeLegacy := by
  decide

/-- C6 (amended, holds for the full-table role utilities): after normalizing
all elements, `getHighestPriority` returns the first role of the order
administrator, developer, editor, contributor, viewer present among the
normalized elements; with no canonical role present it returns the first
normalized element, and `none` on the empty list. -/
theorem C6_highest_priority_order (roles : List String) :
    (roles = [] → getHighestPriority roles = none) ∧
    ("administrator" ∈ roles.map normalize →
        getHighestPriority roles = some "administrator") ∧
    ("administrator" ∉ roles.map normalize →
        "developer" ∈ roles.map normalize →
        getHighestPriority roles = some "developer") ∧
    ("administrator" ∉ roles.map normalize →
        "developer" ∉ roles.map normalize →
        "editor" ∈ roles.map normalize →
        getHighestPriority roles = some "editor") ∧
    ("administrator" ∉ roles.map normalize →
        "developer" ∉ roles.map normalize →
        "editor" ∉ roles.map normalize →
        "contributor" ∈ roles.map normalize →
        getHighestPriority roles = some "contributor") ∧
    ("administrator" ∉ roles.map normalize →
        "developer" ∉ roles.map normalize →
        "editor" ∉ roles.map normalize →
        "contributor" ∉ roles.map normalize →
        "viewer" ∈ roles.map normalize →
        getHighestPriority roles = some "viewer") ∧
    ((∀ c ∈ rolePriority, c ∉ roles.map normalize) →
        getHighestPriority roles = (roles.map normalize).head?) := by
  refine ⟨?_, ?_, ?_, ?_, ?_, ?_, ?_⟩
  · rintro rfl; rfl
  · intro h1
    simp only [getHighestPriority, rolePriority, List.find?,
      contains_true_of_mem h1]
  · intro h1 h2
    simp only [getHighestPriority, rolePriority, List.find?,
      contains_false_of_not_mem h1, contains_true_of_mem h2]
  · intro h1 h2 h3
    simp only [getHighestPriority, rolePriority, List.find?,
      contains_false_of_not_mem h1, contains_false_of_not_mem h2,
      contains_true_of_mem h3]
  · intro h1 h2 h3 h4
    simp only [getHighestPriority, rolePriority, List.find?,
      contains_false_of_not_mem h1, contains_false_of_not_mem h2,
      contains_false_of_not_mem h3, contains_true_of_mem h4]
  · intro h1 h2 h3 h4 h5
    simp only [getHighestPriority, rolePriority, List.find?,
      contains_false_of_not_mem h1, contains_false_of_not_mem h2,
      contains_false_of_not_mem h3, contains_false_of_not_mem h4,
      contains_true_of_mem h5]
  · intro h
    have h1 := h "administrator" (by simp [rolePriority])
    have h2 := h "developer" (by simp [rolePriority])
    have h3 := h "editor" (by simp [rolePriority])
    have h4 := h "contributor" (by simp [rolePriority])
    have h5 := h "viewer" (by simp [rolePriority])
    simp only [getHighestPriority, rolePriority, List.find?,
      contains_false_of_not_mem h1, contains_false_of_not_mem h2,
      contains_false_of_not_mem h3, contains_false_of_not_mem h4,
      contains_false_of_not_mem h5]

/-- C6 witness: the amended theorem applied to ["viewer", "admin"] (the
administrator branch) and to ["unknown", "custom"] (the first-element
fallback branch of the claim). -/
theorem C6_highest_priority_order_witness :
    getHighestPriority ["viewer", "admin"] = some "administrator" ∧
    getHighestPriority ["unknown", "custom"] =
      (["unknown", "custom"].map normalize).head? :=
  ⟨(C6_highest_priority_order ["viewer", "admin"]).2.1 (by decide),
   (C6_highest_priority_order ["unknown", "custom"]).2.2.2.2.2.2 (by decide)⟩

/-- C7: on the claim input the legacy extractor keeps the empty-string name
(`{name: ""}` passes its `role !== null` filter), returning
["administrator", ""] rather than ["administrator"], refuting the claim for
the legacy copy. -/
theorem C7_legacy_empty_name_cx :
    extractFromUserLegacy (.arr [.objE (some (.strV "admin")) none,
        .objE none (some "Editor"), .objE none none,
        .objE (some (.strV "")) none, .objE (some .nullV) none])
      = ["administrator", ""] ∧
    (["administrator", ""] : List String) ≠ ["administrator"] := by
  decide

/-- Modelled from the claim wording, for comparison with the extractor from
the source: a valid entry is a plain nonempty string or an object whose name
field holds a nonempty string, and it yields that name. -/
def specValidRole : RoleEntry → Option String
  | .strE s => if s = "" then none else some s
  | .objE (some (.strV s)) _ => if s = "" then none else some s
  | _ => none

/-- Modelled from the claim wording: keep the valid entries, normalize them,
and deduplicate preserving first-occurrence order. -/
def extractSpec (xs : List RoleEntry) : List String :=
  dedupFirst ((xs.filterMap specValidRole).map normalize)

/-- Helper for C7: the source filter (keep mapped names that are neither
null nor empty) agrees with the claim predicate for valid entries. -/
theorem filterMap_entryToRaw_eq_spec (xs : List RoleEntry) :
    ((xs.filterMap entryToRaw).filter (fun r => r ≠ ""))
      = xs.filterMap specValidRole := by
  simp only [ne_eq, decide_not]
  induction xs with
  | nil => rfl
  | cons e xs ih =>
      cases e with
      | strE s =>
          by_cases hs : s = "" <;>
            simp [entryToRaw, specValidRole, hs, ih]
      | objE nm t =>
          match nm with
          | none => simpa [entryToRaw, specValidRole] using ih
          | some .nullV => simpa [entryToRaw, specValidRole] using ih
          | some (.strV s) =>
              by_cases hs : s = "" <;>
                simp [entryToRaw, specValidRole, hs, ih]
      | nullE => simpa [entryToRaw, specValidRole] using ih

/-- C7 (amended, holds for the full-table role utilities): on an array roles
field the extractor filters out invalid entries, normalizes the valid ones
and deduplicates preserving first-occurrence order, and on the claim input it
returns exactly ["administrator"].  (The extractor is a pure function of the
roles field, so the input user object is not modified.) -/
theorem C7_extract_filters_and_dedups :
    (∀ xs : List RoleEntry, extractFromUser (.arr xs) = extractSpec xs) ∧
    extractFromUser (.arr [.objE (some (.strV "admin")) none,
        .objE none (some "Editor"), .objE none none,
        .objE (some (.strV "")) none, .objE (some .nullV) none])
      = ["administrator"] := by
  constructor
  · intro xs
    show dedupFirst _ = dedupFirst _
    rw [filterMap_entryToRaw_eq_spec]
  · decide

/-- C2: evaluating `throttleAsync` on the failing interleaving.  The trace is
an admissible event-loop execution (`wf = true`): the promise of the call at
t=0 settles at t=5 while still current, so its `finally` handler schedules
the null-ing timer for t=15; the call at t=12 starts a fresh window, but the
stale timer clears `currentPromise` at t=15, and the call at t=16 — only 4ms
into the 10ms window opened at t=12 — triggers a second underlying invocation
and receives promise 2 instead of promise 1.  The claim (and the code comment
saying the reference is only cleared while still current) requires exactly
one invocation per window with all callers sharing one promise. -/
theorem C2_throttleAsync_stale_timer_bug :
    (runThrottle 10 throttleBugTrace).wf = true ∧
    (runThrottle 10 throttleBugTrace).invocations = [(0, 0), (12, 1), (16, 2)] ∧
    (runThrottle 10 throttleBugTrace).returned = [(0, 0), (12, 1), (16, 2)] ∧
    16 - 12 < 10 := by
  decide

/-- Helper: the rate-limit message starts with the letter R. -/
theorem rateLimitMessage_head (cfg : StagingAuthConfig) (ra : Option String) :
    (rateLimitMessage cfg ra).data.head? = some 'R' := by
  unfold rateLimitMessage
  rw [String.data_append, String.data_append]
  rfl

/-- Helper: the generic failure message starts with the letter V. -/
theorem validationFailedMessage_head (st : String) :
    (validationFailedMessage st).data.head? = some 'V' := by
  unfold validationFailedMessage
  rw [String.data_append]
  rfl

/-- C3: a 429 response makes `validateStagingAccess` throw the rate-limited
error; the seconds figure in its message is the `Retry-After` header value
when the header is present (and nonempty — the `||` fallback treats an empty
header like an absent one), else `floor(rateLimitRetryMs / 1000)`; and the
message differs from the 403 message and from every generic non-2xx
message. -/
theorem C3_rate_limited_error (token : String) (roles : List String)
    (un ue : Option String) (cfg : StagingAuthConfig) (statusText : String)
    (retryAfter : Option String) (body : Json) :
    validateStagingAccess token (some roles) un ue cfg
        (.response ⟨429, statusText, retryAfter, body⟩)
      = ⟨true, .thrown (.jsError (rateLimitMessage cfg retryAfter))⟩ ∧
    (∀ s, retryAfter = some s → s ≠ "" →
        rateLimitMessage cfg retryAfter =
          "Rate limit exceeded. Please try again in " ++ s ++ " seconds.") ∧
    (retryAfter = none →
        rateLimitMessage cfg retryAfter =
          "Rate limit exceeded. Please try again in " ++
            toString (cfg.security.rateLimitRetryMs / 1000) ++ " seconds.") ∧
    rateLimitMessage cfg retryAfter ≠ forbiddenMessage ∧
    (∀ st, rateLimitMessage cfg retryAfter ≠ validationFailedMessage st) := by
  refine ⟨rfl, ?_, ?_, ?_, ?_⟩
  · rintro s rfl hs
    simp [rateLimitMessage, rateLimitRetrySeconds, hs]
  · rintro rfl
    rfl
  · intro h
    have h2 : (rateLimitMessage cfg retryAfter).data.head?
        = forbiddenMessage.data.head? := by rw [h]
    rw [rateLimitMessage_head] at h2
    exact absurd h2 (by decide)
  · intro st h
    have h2 : (rateLimitMessage cfg retryAfter).data.head?
        = (validationFailedMessage st).data.head? := by rw [h]
    rw [rateLimitMessage_head, validationFailedMessage_head] at h2
    exact absurd h2 (by decide)

/-- C3 witness: the theorem at a concrete 429 response carrying
`Retry-After: 30` against the compiled defaults. -/
theorem C3_rate_limited_error_witness :
    validateStagingAccess "tok" (some ["editor"]) none none defaults
        (.response ⟨429, "Too Many Requests", some "30", .nullJ⟩)
      = ⟨true, .thrown (.jsError
          "Rate limit exceeded. Please try again in 30 seconds.")⟩ := by
  have h := C3_rate_limited_error "tok" ["editor"] none none defaults
    "Too Many Requests" (some "30") .nullJ
  have hmsg := h.2.1 "30" rfl (by decide)
  rw [h.1, hmsg]
  decide

/-- C4: a 2xx response whose body fails the response schema makes
`validateStagingAccess` throw the invalid-format error, and in particular
no `ValidationResult` (with any defaulted `authorized`) is returned. -/
theorem C4_invalid_body_rejected (token : String) (roles : List String)
    (un ue : Option String) (cfg : StagingAuthConfig) (status : Nat)
    (statusText : String) (retryAfter : Option String) (body : Json)
    (h2xx : 200 ≤ status) (h2xx2 : status < 300)
    (hbad : parseValidationResponse body = none) :
    validateStagingAccess token (some roles) un ue cfg
        (.response ⟨status, statusText, retryAfter, body⟩)
      = ⟨true, .thrown (.jsError invalidFormatMessage)⟩ ∧
    (∀ v : ValidationResult,
        (validateStagingAccess token (some roles) un ue cfg
          (.response ⟨status, statusText, retryAfter, body⟩)).result ≠ .ok v) := by
  have hok : responseOk ⟨status, statusText, retryAfter, body⟩ = true := by
    simp [responseOk, h2xx, h2xx2]
  constructor
  · simp [validateStagingAccess, hok, hbad]
  · intro v
    simp [validateStagingAccess, hok, hbad]

/-- C4 witness: the theorem at a 200 response whose `authorized` field is the
string "yes" rather than a boolean. -/
theorem C4_invalid_body_rejected_witness :
    validateStagingAccess "tok" (some ["editor"]) none none defaults
        (.response ⟨200, "OK", none, .objJ [("authorized", .strJ "yes")]⟩)
      = ⟨true, .thrown (.jsError invalidFormatMessage)⟩ :=
  (C4_invalid_body_rejected "tok" ["editor"] none none defaults 200 "OK" none
    (.objJ [("authorized", .strJ "yes")]) (by decide) (by decide) rfl).1

/-- C9: when `userRoles` is omitted (`undefined`), the start-of-validation
log data reads `userRoles.length` before the `try` block and before the
fetch, so the call throws a `TypeError` and no network request is issued,
whatever the environment would have answered. -/
theorem C9_omitted_roles_type_error (token : String) (un ue : Option String)
    (cfg : StagingAuthConfig) (fetched : FetchOutcome) :
    validateStagingAccess token none un ue cfg fetched
      = ⟨false, .thrown (.typeError
          "Cannot read properties of undefined (reading length)")⟩ ∧
    (validateStagingAccess token none un ue cfg fetched).fetchIssued = false :=
  ⟨rfl, rfl⟩

/-- C1: the claim requires that an untrusted-origin message is dropped
before any schema validation; the legacy handler evaluates the auth-request
schema guard before the origin check, so at this concrete untrusted-origin
message schema validation did run (`parseRan = true`), refuting the claim
(no reply is sent, as the claim also states). -/
theorem C1_legacy_parses_untrusted_cx :
    defaults.security.allowedOrigins.contains "https://evil.example" = false ∧
    (handleMessageLegacy defaults ⟨true, true, false⟩ "https://evil.example"
        (.authReq none none) true).parseRan = true ∧
    (handleMessageLegacy defaults ⟨true, true, false⟩ "https://evil.example"
        (.authReq none none) true).reply = none := by
  decide

/-- C1 (amended): a message from an origin outside `allowedOrigins` never
produces a reply in either handler; the current handler additionally drops it
before any schema validation runs and leaves the nonce registry untouched,
while the legacy handler runs the auth-request schema guard first. -/
theorem C1_untrusted_origin_no_reply (cfg : StagingAuthConfig)
    (auth : AuthState) (nonces : List String) (origin : String) (data : MsgData)
    (src : Bool) (h : cfg.security.allowedOrigins.contains origin = false) :
    handleMessage cfg auth nonces origin data src = ⟨false, none, nonces⟩ ∧
    (handleMessageLegacy cfg auth origin data src).reply = none := by
  have hmem : origin ∉ cfg.security.allowedOrigins := by simpa using h
  constructor
  · simp [handleMessage, h, hmem]
  · unfold handleMessageLegacy
    cases hpm : cfg.features.enablePostMessage
    · rfl
    · cases data <;> simp [h, hmem]

/-- C1 witness: the amended theorem at a concrete untrusted origin against
the compiled defaults. -/
theorem C1_untrusted_origin_no_reply_witness :
    handleMessage defaults ⟨false, false, false⟩ [] "https://evil.example"
        (.authReq none none) true = ⟨false, none, []⟩ ∧
    (handleMessageLegacy defaults ⟨false, false, false⟩ "https://evil.example"
        (.authReq none none) true).reply = none :=
  C1_untrusted_origin_no_reply defaults ⟨false, false, false⟩ []
    "https://evil.example" (.authReq none none) true (by decide)

/-- C10: with the PostMessage feature on, an auth status request from a
trusted origin that carries no nonce is answered for every possible registry
content (the registry is neither consulted nor changed), while a request
whose nonce is truthy but absent from the registry is dropped. -/
theorem C10_missing_nonce_bypasses_csrf (cfg : StagingAuthConfig)
    (auth : AuthState) (nonces : List String) (origin : String)
    (cid : Option String)
    (htrust : cfg.security.allowedOrigins.contains origin = true)
    (hpm : cfg.features.enablePostMessage = true) :
    handleMessage cfg auth nonces origin (.authReq cid none) true
      = ⟨true, some ⟨auth.authenticated, auth.hasValidation, auth.isValidating,
          cid, none⟩, nonces⟩ ∧
    (∀ n : String, n ≠ "" → nonces.contains n = false →
        handleMessage cfg auth nonces origin (.authReq cid (some n)) true
          = ⟨true, none, nonces⟩) := by
  have hmem : origin ∈ cfg.security.allowedOrigins := List.elem_iff.mp htrust
  constructor
  · simp [handleMessage, htrust, hmem, handleNonceRegistration,
      handleAuthRequest, hpm, strTruthy]
  · intro n hn hreg
    have hnmem : n ∉ nonces := by simpa using hreg
    simp [handleMessage, htrust, hmem, handleNonceRegistration,
      handleAuthRequest, hpm, strTruthy, isValidNonce, hn, hreg, hnmem]

/-- C10 witness: the theorem at the default staging origin with an arbitrary
registry, plus the dropped case for the unregistered nonce "deadbeef". -/
theorem C10_missing_nonce_bypasses_csrf_witness :
    handleMessage defaults ⟨true, false, false⟩ ["abc"]
        "https://staging.example.com" (.authReq (some "cid-1") none) true
      = ⟨true, some ⟨true, false, false, some "cid-1", none⟩, ["abc"]⟩ ∧
    handleMessage defaults ⟨true, false, false⟩ ["abc"]
        "https://staging.example.com" (.authReq (some "cid-1") (some "deadbeef")) true
      = ⟨true, none, ["abc"]⟩ :=
  ⟨(C10_missing_nonce_bypasses_csrf defaults ⟨true, false, false⟩ ["abc"]
      "https://staging.example.com" (some "cid-1") (by decide) (by decide)).1,
   (C10_missing_nonce_bypasses_csrf defaults ⟨true, false, false⟩ ["abc"]
      "https://staging.example.com" (some "cid-1") (by decide) (by decide)).2
      "deadbeef" (by decide) (by decide)⟩

/-- A build step preserves the `defaults` content (and unsharedness) when
run on an unshared (deep-cloned) build state. -/
def PreservesDflt (f : BuildState → BuildState) : Prop :=
  ∀ st, st.shared = false → (f st).dflt = st.dflt ∧ (f st).shared = false

/-- Writes through an unshared `urls` object leave `defaults` unchanged. -/
theorem writeUrls_preserves (g : UrlsConfig → UrlsConfig) :
    PreservesDflt (fun st => writeUrls st g) := by
  intro st h
  simp [writeUrls, h]

/-- Writes through an unshared `security` object leave `defaults` unchanged. -/
theorem writeSecurity_preserves (g : SecurityConfig → SecurityConfig) :
    PreservesDflt (fun st => writeSecurity st g) := by
  intro st h
  simp [writeSecurity, h]

/-- Writes through an unshared `logging` object leave `defaults` unchanged. -/
theorem writeLogging_preserves (g : LoggingConfig → LoggingConfig) :
    PreservesDflt (fun st => writeLogging st g) := by
  intro st h
  simp [writeLogging, h]

/-- Writes through an unshared `features` object leave `defaults` unchanged. -/
theorem writeFeatures_preserves (g : FeaturesConfig → FeaturesConfig) :
    PreservesDflt (fun st => writeFeatures st g) := by
  intro st h
  simp [writeFeatures, h]

/-- A guarded step preserves `defaults` when its body does. -/
theorem condW_preserves (b : Bool) (f : BuildState → BuildState)
    (hf : PreservesDflt f) : PreservesDflt (condW b f) := by
  intro st h
  unfold condW
  cases b with
  | false => exact ⟨rfl, h⟩
  | true => exact hf st h

/-- Every step of the override sequence preserves `defaults` on unshared
state. -/
theorem overrideSteps_preserve (i : BuildInput) :
    ∀ f ∈ overrideSteps i, PreservesDflt f := by
  intro f hf
  simp only [overrideSteps, List.mem_cons, List.not_mem_nil, or_false] at hf
  rcases hf with rfl|rfl|rfl|rfl|rfl|rfl|rfl|rfl|rfl|rfl|rfl|rfl|rfl|rfl|rfl|rfl|rfl|rfl
  all_goals first
    | exact condW_preserves _ _ (writeUrls_preserves _)
    | exact condW_preserves _ _ (writeSecurity_preserves _)
    | exact condW_preserves _ _ (writeLogging_preserves _)
    | exact condW_preserves _ _ (writeFeatures_preserves _)
    | exact writeLogging_preserves _
    | exact writeFeatures_preserves _

/-- Folding steps that preserve `defaults` preserves `defaults`. -/
theorem foldl_preserves (fs : List (BuildState → BuildState))
    (hfs : ∀ f ∈ fs, PreservesDflt f) :
    PreservesDflt (fun st => fs.foldl (fun s f => f s) st) := by
  induction fs with
  | nil => exact fun st h => ⟨rfl, h⟩
  | cons f fs ih =>
      intro st h
      have h1 := hfs f (List.mem_cons_self f fs) st h
      have h2 := ih (fun g hg => hfs g (List.mem_cons_of_mem f hg)) (f st) h1.2
      exact ⟨h2.1.trans h1.1, h2.2⟩

/-- The whole override sequence preserves `defaults` on unshared state. -/
theorem applyOverrides_preserves (i : BuildInput) :
    PreservesDflt (applyOverrides i) :=
  fun st h => foldl_preserves (overrideSteps i) (overrideSteps_preserve i) st h

/-- C8: the legacy `buildConfig` starts from the shallow spread
`{ ...defaults }`, so a single development-mode build pushes the three dev
origins onto the shared `defaults.security.allowedOrigins` array — the
defaults content differs after the build, refuting the claim. -/
theorem C8_legacy_shallow_copy_mutates_cx :
    (buildConfigLegacy devBuildInput defaults).dflt.security.allowedOrigins
      = ["https://staging.example.com", "https://localhost:3000",
         "https://localhost:3334", "http://localhost:3000",
         "http://localhost:3333", "http://localhost:3334"] ∧
    (buildConfigLegacy devBuildInput defaults).dflt ≠ defaults := by
  decide

/-- C8 (amended): builds through the deep-clone `buildConfig` never change
the `defaults` object: one build leaves it intact for every combination of
environment, development-mode, Edge Config and platform inputs, and so does
any number of successive builds.  (The legacy shallow-spread `buildConfig`
violates this, per the counterexample.) -/
theorem C8_deepclone_never_mutates_defaults :
    (∀ (i : BuildInput) (d : StagingAuthConfig),
        (buildConfigDeepClone i d).dflt = d) ∧
    (∀ (inputs : List BuildInput) (d : StagingAuthConfig),
        runDeepCloneBuilds inputs d = d) := by
  have hsingle : ∀ (i : BuildInput) (d : StagingAuthConfig),
      (buildConfigDeepClone i d).dflt = d := fun i d =>
    (applyOverrides_preserves i ⟨d, deepClone d, false⟩ rfl).1
  refine ⟨hsingle, ?_⟩
  intro inputs
  induction inputs with
  | nil => exact fun d => rfl
  | cons i rest ih =>
      intro d
      show runDeepCloneBuilds rest (buildConfigDeepClone i d).dflt = d
      rw [hsingle i d]
      exact ih d

end StagingAuth
